import Mathlib

/-!
# Verification of the macOS icon packer (`crates/tauri-bundler/src/bundle/macos/icon.rs`)

Shallow embedding of the ICNS icon-family packer and the Assets.car
version gate, together with theorems settling the specification claims.

File I/O (opening image files, writing the output container, copying
files) is abstracted: an input file is a record carrying the data the
source derives from the path (file name, extension, retina flag) and the
decode result (`none` models a decoding failure of `image::open`).
-/

namespace TauriIcon

/-- `icns::PixelFormat` — the four pixel formats the ICNS encoder accepts. -/
inductive PixelFormat
  | RGBA
  | RGB
  | GrayAlpha
  | Gray
deriving DecidableEq

/-- The `image::ColorType` variants relevant to `make_icns_image`: the four
supported 8-bit formats plus the other color types that fall into the
wildcard arm of the `match`. -/
inductive ColorType
  | L8
  | La8
  | Rgb8
  | Rgba8
  | L16
  | La16
  | Rgb16
  | Rgba16
  | Rgb32F
  | Rgba32F
deriving DecidableEq

/-- Debug-format name of an `image::ColorType`, as interpolated by
`format!("unsupported ColorType: {:?}", img.color())`. -/
def ColorType.rustName : ColorType → String
  | .L8 => "L8"
  | .La8 => "La8"
  | .Rgb8 => "Rgb8"
  | .Rgba8 => "Rgba8"
  | .L16 => "L16"
  | .La16 => "La16"
  | .Rgb16 => "Rgb16"
  | .Rgba16 => "Rgba16"
  | .Rgb32F => "Rgb32F"
  | .Rgba32F => "Rgba32F"

/-- `image::DynamicImage`: a decoded raster with its dimensions, color type
and pixel buffer.  The buffer is a list of bytes; its contents are opaque to
the packer, which only moves it around (`img.into_bytes()`). -/
structure DynamicImage where
  width : Nat
  height : Nat
  color : ColorType
  data : List Nat
deriving DecidableEq

/-- `icns::IconType` — the slot types reachable from
`IconType::from_pixel_size_and_density`. -/
inductive IconType
  | RGBA32_16x16
  | RGBA32_16x16_2x
  | RGBA32_32x32
  | RGBA32_32x32_2x
  | RGBA32_64x64
  | RGBA32_128x128
  | RGBA32_128x128_2x
  | RGBA32_256x256
  | RGBA32_256x256_2x
  | RGBA32_512x512
  | RGBA32_512x512_2x
deriving DecidableEq

/-- Slot table of the external `icns` crate,
`IconType::from_pixel_size_and_density(width, height, density)`: the fixed,
closed catalog of (square pixel size, density) pairs the container format
recognizes; every other combination maps to `none`.  The spec describes this
as "a total function from (size, density) to `Option<SlotType>` — some
combinations have no matching slot". -/
def IconType.from_pixel_size_and_density (w h d : Nat) : Option IconType :=
  if w = 16 ∧ h = 16 ∧ d = 1 then some .RGBA32_16x16
  else if w = 32 ∧ h = 32 ∧ d = 2 then some .RGBA32_16x16_2x
  else if w = 32 ∧ h = 32 ∧ d = 1 then some .RGBA32_32x32
  else if w = 64 ∧ h = 64 ∧ d = 2 then some .RGBA32_32x32_2x
  else if w = 64 ∧ h = 64 ∧ d = 1 then some .RGBA32_64x64
  else if w = 128 ∧ h = 128 ∧ d = 1 then some .RGBA32_128x128
  else if w = 256 ∧ h = 256 ∧ d = 2 then some .RGBA32_128x128_2x
  else if w = 256 ∧ h = 256 ∧ d = 1 then some .RGBA32_256x256
  else if w = 512 ∧ h = 512 ∧ d = 2 then some .RGBA32_256x256_2x
  else if w = 512 ∧ h = 512 ∧ d = 1 then some .RGBA32_512x512
  else if w = 1024 ∧ h = 1024 ∧ d = 2 then some .RGBA32_512x512_2x
  else none

/-- `icns::Image`: an encoded icon payload (pixel format, dimensions, bytes).
`Image::from_data` packages these fields; its buffer-length validation always
succeeds on buffers produced by the `image` crate for their own dimensions
and is not modelled. -/
structure IcnsImage where
  format : PixelFormat
  width : Nat
  height : Nat
  data : List Nat
deriving DecidableEq

/-- `icns::IconFamily`: the slot map, kept as the list of (slot, payload)
entries in insertion order. -/
structure IconFamily where
  elements : List (IconType × IcnsImage)
deriving DecidableEq

/-- `IconFamily::new()`. -/
def IconFamily.new : IconFamily := ⟨[]⟩

/-- `IconFamily::has_icon_with_type`. -/
def IconFamily.has_icon_with_type (fam : IconFamily) (t : IconType) : Bool :=
  fam.elements.any (fun e => e.1 == t)

/-- `IconFamily::add_icon_with_type`: records the payload under the slot. -/
def IconFamily.add_icon_with_type (fam : IconFamily) (img : IcnsImage) (t : IconType) :
    IconFamily :=
  ⟨fam.elements ++ [(t, img)]⟩

/-- `IconFamily::is_empty`. -/
def IconFamily.is_empty (fam : IconFamily) : Bool :=
  fam.elements.isEmpty

/-- The payload occupying slot `t`, if any. -/
def IconFamily.get_icon_with_type? (fam : IconFamily) (t : IconType) : Option IcnsImage :=
  (fam.elements.find? (fun e => e.1 == t)).map (fun e => e.2)

/-- `std::io::ErrorKind` values used by this module. -/
inductive ErrorKind
  | InvalidData
  | InvalidInput
deriving DecidableEq

/-- The errors `create_icns_file` can surface (`crate::Result`): `io::Error`
values propagated by `?`, `image::open` decode failures, and
`crate::Error::GenericError`. -/
inductive PackError
  | ioError (kind : ErrorKind) (msg : String)
  | imageError (file : String)
  | genericError (msg : String)
deriving DecidableEq

/-- The pixel-format arm of the `match img.color()` in `make_icns_image`:
the four supported 8-bit color types, `none` for the wildcard arm. -/
def pixelFormatOf : ColorType → Option PixelFormat
  | .Rgba8 => some .RGBA
  | .Rgb8 => some .RGB
  | .La8 => some .GrayAlpha
  | .L8 => some .Gray
  | _ => none

/-- `make_icns_image`: converts an `image::DynamicImage` into an
`icns::Image`, failing with an `InvalidData` io error on any color type
outside the four supported formats. -/
def make_icns_image (img : DynamicImage) : Except PackError IcnsImage :=
  match pixelFormatOf img.color with
  | some fmt => .ok ⟨fmt, img.width, img.height, img.data⟩
  | none => .error (.ioError .InvalidData ("unsupported ColorType: " ++ img.color.rustName))

/-- `add_icon_to_family`: looks the image's (width, height, density) up in
the slot table; on a hit, encodes and inserts unless the slot is already
occupied; on a miss, returns an `InvalidData` io error ("No matching
IconType"). -/
def add_icon_to_family (icon : DynamicImage) (density : Nat) (family : IconFamily) :
    Except PackError IconFamily :=
  match IconType.from_pixel_size_and_density icon.width icon.height density with
  | some icon_type =>
    if family.has_icon_with_type icon_type then .ok family
    else
      match make_icns_image icon with
      | .ok img => .ok (family.add_icon_with_type img icon_type)
      | .error e => .error e
  | none => .error (.ioError .InvalidData "No matching IconType")

/-- `image::imageops::FilterType` (only `Lanczos3` is used). -/
inductive FilterType
  | Lanczos3
deriving DecidableEq

/-- `DynamicImage::resize_exact(width, height, filter)`.  The Lanczos3
resampling kernel is floating-point pixel arithmetic outside this embedding;
per the spec the resample step is "deterministic and side-effect-free for
the same input", which is all the theorems below use.  The buffer is kept as
the source image's buffer, serving as an opaque payload marker; no theorem
depends on resampled pixel values. -/
def resize_exact (img : DynamicImage) (w h : Nat) (_filter : FilterType) : DynamicImage :=
  ⟨w, h, img.color, img.data⟩

/-- Fuel-driven floor of the base-2 logarithm (`log2floorAux n n` computes
`⌊log₂ n⌋`); structural recursion on the fuel keeps it kernel-reducible. -/
def log2floorAux : Nat → Nat → Nat
  | 0, _ => 0
  | fuel + 1, n => if 2 ≤ n then log2floorAux fuel (n / 2) + 1 else 0

/-- `⌊log₂ n⌋` (0 at 0). -/
def log2floor (n : Nat) : Nat := log2floorAux n n

/-- `next_size_down`: the source computes
`2f32.powf((orig_size as f32).log2().floor()) as u32`, i.e. rounds the side
length down to the nearest power of two.  Modelled exactly as
`2 ^ ⌊log₂ s⌋`, the value the spec states; with a correctly rounded
`log2f` the `f32` computation agrees for every side length below
`2^21 - 1` (beyond that, `log2` of integers just under a power of two can
round up to the exact exponent), which covers every size the fixed slot
catalog can make relevant. -/
def nextSizeDown (s : Nat) : Nat := 2 ^ log2floor s

/-- One input icon file, carrying what the source derives from the path and
the decode result: the file name, the extension (`Path::extension`), the
decoded image (`none` models `image::open` failing), and whether
`utils::is_retina` holds for the path. -/
structure IconFile where
  name : String
  ext : Option String
  content : Option DynamicImage
  retina : Bool
deriving DecidableEq

/-- One iteration of the first pass of `create_icns_file` over the icon
files: skip `.car` files before decoding; decode (a failure aborts via
`?`); classify by `orig_size = min(w, h)` against `next_size_down`,
queueing `(icon, next_size_down, density)` for the resize pass or adding
the image to the family directly. -/
def processFile (acc : IconFamily × List (DynamicImage × Nat × Nat)) (file : IconFile) :
    Except PackError (IconFamily × List (DynamicImage × Nat × Nat)) :=
  if file.ext = some "car" then .ok acc
  else
    match file.content with
    | none => .error (.imageError file.name)
    | some icon =>
      let density := if file.retina then 2 else 1
      let origSize := Nat.min icon.width icon.height
      let nsd := nextSizeDown origSize
      if origSize > nsd then
        .ok (acc.1, acc.2 ++ [(icon, nsd, density)])
      else
        match add_icon_to_family icon density acc.1 with
        | .ok fam => .ok (fam, acc.2)
        | .error e => .error e

/-- The first pass of `create_icns_file`: fold `processFile` over the icon
files, short-circuiting on the first error (the `?` operator). -/
def processAll (files : List IconFile) (acc : IconFamily × List (DynamicImage × Nat × Nat)) :
    Except PackError (IconFamily × List (DynamicImage × Nat × Nat)) :=
  match files with
  | [] => .ok acc
  | f :: rest =>
    match processFile acc f with
    | .ok acc' => processAll rest acc'
    | .error e => .error e

/-- The second pass of `create_icns_file`: resize each queued image to
`next_size_down × next_size_down` with Lanczos3 and add it to the family,
short-circuiting on the first error. -/
def resizePass (queue : List (DynamicImage × Nat × Nat)) (family : IconFamily) :
    Except PackError IconFamily :=
  match queue with
  | [] => .ok family
  | (icon, nsd, density) :: rest =>
    match add_icon_to_family (resize_exact icon nsd nsd .Lanczos3) density family with
    | .ok fam' => resizePass rest fam'
    | .error e => .error e

/-- The observable outcome of `create_icns_file` when it returns a path:
either an existing `.icns` file was copied to the output directory, or a
family was packed and written as `<product_name>.icns`.  The family is kept
in the packed outcome to expose what the written container holds. -/
inductive PackOutput
  | copiedIcns (destName : String)
  | packedIcns (destName : String) (family : IconFamily)
deriving DecidableEq

/-- `create_icns_file`: returns `ok none` on an empty file list; copies the
first `.icns` input if one exists; otherwise runs the two packing passes
and writes the family, failing with `GenericError("No usable Icon files
found")` when no slot was populated. -/
def create_icns_file (productName : String) (files : List IconFile) :
    Except PackError (Option PackOutput) :=
  if files.length = 0 then .ok none
  else
    match files.find? (fun f => f.ext == some "icns") with
    | some f => .ok (some (.copiedIcns f.name))
    | none =>
      match processAll files (IconFamily.new, []) with
      | .error e => .error e
      | .ok (family, toResize) =>
        match resizePass toResize family with
        | .error e => .error e
        | .ok family =>
          if family.is_empty then .error (.genericError "No usable Icon files found")
          else .ok (some (.packedIcns (productName ++ ".icns") family))

/-! ## The Assets.car path (`create_assets_car_file` and the actool gate) -/

/-- An icon path from `settings.icons()`: its file name and extension. -/
structure IconPath where
  name : String
  ext : Option String
deriving DecidableEq

/-- The line scan of `parse_actool_version`: trim the line; when it starts
with `short-bundle-version:`, return the trimmed remainder. -/
def versionFromLine (line : String) : Option String :=
  let l := line.trim
  if l.startsWith "short-bundle-version:" then
    some ((l.drop "short-bundle-version:".length).trim)
  else none

/-- `parse_actool_version`: the first `short-bundle-version:` line of the
tool's free-text version output, if any. -/
def parse_actool_version (output : String) : Option String :=
  (output.splitOn "\n").findSome? versionFromLine

/-- Rust `str::parse::<u32>()`: an optional `+` sign followed by at least
one digit, value within `u32` range. -/
def parseU32 (s : String) : Option Nat :=
  let t := if s.startsWith "+" then s.drop 1 else s
  match t.toNat? with
  | none => none
  | some n => if n < 2 ^ 32 then some n else none

/-- `get_actool_version`, parameterized by the outcome of running
`actool --version --output-format=human-readable-text`: `none` models a
missing tool or failed command, `some out` the captured stdout, which is
then parsed. -/
def get_actool_version (versionOutput : Option String) : Option String :=
  match versionOutput with
  | none => none
  | some out => parse_actool_version out

/-- The major version the gate compares against 26:
`version.split('.').next().and_then(|s| s.parse().ok())` applied to the
parsed version string, `none` when the tool is missing or unparseable. -/
def actoolMajor (versionOutput : Option String) : Option Nat :=
  match get_actool_version versionOutput with
  | none => none
  | some version => parseU32 ((version.splitOn ".").headD "")

/-- `create_assets_car_file`, with its two external effects as parameters:
`actoolVersionOutput` is the result of running the version query (see
`get_actool_version`), and `compileCatalog` is the opaque
compile-catalog operation the spec prescribes for everything past the
version gate (temp-dir setup, `actool` invocation, artifact checks and
copy), returning the produced artifact path or a failure.  The function
returns `ok none` when there are no icons, no `.icon` input, or the
version gate fails; copies an existing `.car` input directly. -/
def create_assets_car_file (icons : Option (List IconPath))
    (actoolVersionOutput : Option String)
    (compileCatalog : IconPath → Except PackError (Option String)) :
    Except PackError (Option String) :=
  match icons with
  | none => .ok none
  | some iconList =>
    match iconList.find? (fun i => i.ext == some "car") with
    | some _ => .ok (some "Assets.car")
    | none =>
      match (iconList.filter (fun i => i.ext == some "icon")).getLast? with
      | none => .ok none
      | some iconDir =>
        match get_actool_version actoolVersionOutput with
        | none => .ok none
        | some version =>
          match parseU32 ((version.splitOn ".").headD "") with
          | none => .ok none
          | some major => if major < 26 then .ok none else compileCatalog iconDir

/-! ## Helper lemmas -/

instance instDecidableEqExcept {ε α : Type} [DecidableEq ε] [DecidableEq α] :
    DecidableEq (Except ε α) :=
  fun a b =>
    match a, b with
    | .ok x, .ok y => if h : x = y then .isTrue (by rw [h]) else .isFalse (by simp [h])
    | .error x, .error y => if h : x = y then .isTrue (by rw [h]) else .isFalse (by simp [h])
    | .ok _, .error _ => .isFalse (by simp)
    | .error _, .ok _ => .isFalse (by simp)

theorem log2floorAux_sandwich (fuel : Nat) : ∀ n, n ≤ fuel → 1 ≤ n →
    2 ^ log2floorAux fuel n ≤ n ∧ n < 2 ^ (log2floorAux fuel n + 1) := by
  induction fuel with
  | zero => intro n hn h1; omega
  | succ fuel ih =>
    intro n hn h1
    by_cases h2 : 2 ≤ n
    · have hdiv_le : n / 2 ≤ fuel := by omega
      have hdiv_ge : 1 ≤ n / 2 := by omega
      obtain ⟨ihl, ihr⟩ := ih (n / 2) hdiv_le hdiv_ge
      have hstep : log2floorAux (fuel + 1) n = log2floorAux fuel (n / 2) + 1 := by
        simp [log2floorAux, h2]
      rw [hstep]
      constructor
      · calc 2 ^ (log2floorAux fuel (n / 2) + 1) = 2 ^ log2floorAux fuel (n / 2) * 2 := by ring
          _ ≤ n / 2 * 2 := by omega
          _ ≤ n := by omega
      · calc n ≤ n / 2 * 2 + 1 := by omega
          _ < (2 ^ (log2floorAux fuel (n / 2) + 1)) * 2 := by
              have : n / 2 + 1 ≤ 2 ^ (log2floorAux fuel (n / 2) + 1) := by omega
              omega
          _ = 2 ^ (log2floorAux fuel (n / 2) + 1 + 1) := by ring
    · have hn1 : n = 1 := by omega
      subst hn1
      simp [log2floorAux]

theorem log2floor_sandwich (n : Nat) (h1 : 1 ≤ n) :
    2 ^ log2floor n ≤ n ∧ n < 2 ^ (log2floor n + 1) :=
  log2floorAux_sandwich n n (Nat.le_refl n) h1

theorem log2floor_eq_log2 (n : Nat) : log2floor n = Nat.log2 n := by
  rcases Nat.eq_zero_or_pos n with h0 | h1
  · subst h0
    simp [log2floor, log2floorAux, Nat.log2]
  · obtain ⟨hl, hr⟩ := log2floor_sandwich n h1
    rw [Nat.log2_eq_log_two]
    exact (Nat.log_eq_of_pow_le_of_lt_pow hl hr).symm

theorem nextSizeDown_le (s : Nat) (hs : 1 ≤ s) : nextSizeDown s ≤ s :=
  (log2floor_sandwich s hs).1

theorem nextSizeDown_pow (k : Nat) : nextSizeDown (2 ^ k) = 2 ^ k := by
  unfold nextSizeDown
  rw [log2floor_eq_log2, Nat.log2_eq_log_two, Nat.log_pow Nat.one_lt_two]

theorem find?_append_left_none {α : Type} (p : α → Bool) :
    ∀ l₁ l₂ : List α, l₁.any p = false → (l₁ ++ l₂).find? p = l₂.find? p := by
  intro l₁
  induction l₁ with
  | nil => intro l₂ _; rfl
  | cons a l ih =>
    intro l₂ h
    simp only [List.any_cons, Bool.or_eq_false_iff] at h
    simp only [List.cons_append, List.find?_cons, h.1]
    exact ih l₂ h.2

theorem has_icon_add_self (fam : IconFamily) (img : IcnsImage) (t : IconType) :
    (fam.add_icon_with_type img t).has_icon_with_type t = true := by
  simp [IconFamily.has_icon_with_type, IconFamily.add_icon_with_type]

theorem get_icon_add_of_free (fam : IconFamily) (img : IcnsImage) (t : IconType)
    (hfree : fam.has_icon_with_type t = false) :
    (fam.add_icon_with_type img t).get_icon_with_type? t = some img := by
  unfold IconFamily.get_icon_with_type? IconFamily.add_icon_with_type
  rw [find?_append_left_none _ fam.elements [(t, img)] hfree]
  simp

theorem processAll_nil (acc : IconFamily × List (DynamicImage × Nat × Nat)) :
    processAll [] acc = .ok acc := rfl

theorem processAll_cons (f : IconFile) (rest : List IconFile)
    (acc : IconFamily × List (DynamicImage × Nat × Nat)) :
    processAll (f :: rest) acc =
      match processFile acc f with
      | .ok acc' => processAll rest acc'
      | .error e => .error e := rfl

theorem resizePass_nil (fam : IconFamily) : resizePass [] fam = .ok fam := rfl

theorem resizePass_cons (icon : DynamicImage) (nsd density : Nat)
    (rest : List (DynamicImage × Nat × Nat)) (fam : IconFamily) :
    resizePass ((icon, nsd, density) :: rest) fam =
      match add_icon_to_family (resize_exact icon nsd nsd .Lanczos3) density fam with
      | .ok fam' => resizePass rest fam'
      | .error e => .error e := rfl

theorem add_icon_to_family_free (icon : DynamicImage) (density : Nat) (t : IconType)
    (fam : IconFamily) (fmt : PixelFormat)
    (hmap : IconType.from_pixel_size_and_density icon.width icon.height density = some t)
    (hfree : fam.has_icon_with_type t = false)
    (hfmt : pixelFormatOf icon.color = some fmt) :
    add_icon_to_family icon density fam =
      .ok (fam.add_icon_with_type ⟨fmt, icon.width, icon.height, icon.data⟩ t) := by
  unfold add_icon_to_family
  rw [hmap]
  dsimp only
  rw [hfree]
  simp only [Bool.false_eq_true, if_false]
  unfold make_icns_image
  rw [hfmt]

theorem add_icon_to_family_occupied (icon : DynamicImage) (density : Nat) (t : IconType)
    (fam : IconFamily)
    (hmap : IconType.from_pixel_size_and_density icon.width icon.height density = some t)
    (hhas : fam.has_icon_with_type t = true) :
    add_icon_to_family icon density fam = .ok fam := by
  unfold add_icon_to_family
  rw [hmap]
  dsimp only
  rw [hhas]
  simp

theorem processFile_direct (acc : IconFamily × List (DynamicImage × Nat × Nat))
    (file : IconFile) (icon : DynamicImage)
    (hcar : file.ext ≠ some "car") (hcontent : file.content = some icon)
    (hdirect : ¬ Nat.min icon.width icon.height > nextSizeDown (Nat.min icon.width icon.height)) :
    processFile acc file =
      match add_icon_to_family icon (if file.retina then 2 else 1) acc.1 with
      | .ok fam => .ok (fam, acc.2)
      | .error e => .error e := by
  unfold processFile
  rw [if_neg hcar, hcontent]
  dsimp only
  rw [if_neg hdirect]

theorem processFile_resize (acc : IconFamily × List (DynamicImage × Nat × Nat))
    (file : IconFile) (icon : DynamicImage)
    (hcar : file.ext ≠ some "car") (hcontent : file.content = some icon)
    (hneeds : Nat.min icon.width icon.height > nextSizeDown (Nat.min icon.width icon.height)) :
    processFile acc file =
      .ok (acc.1, acc.2 ++ [(icon, nextSizeDown (Nat.min icon.width icon.height),
        if file.retina then 2 else 1)]) := by
  unfold processFile
  rw [if_neg hcar, hcontent]
  dsimp only
  rw [if_pos hneeds]

theorem processFile_car (acc : IconFamily × List (DynamicImage × Nat × Nat)) (f : IconFile)
    (h : f.ext = some "car") : processFile acc f = .ok acc := by
  unfold processFile
  rw [if_pos h]

theorem processAll_all_car : ∀ (files : List IconFile) acc,
    (∀ f ∈ files, f.ext = some "car") → processAll files acc = .ok acc := by
  intro files
  induction files with
  | nil => intro acc _; rfl
  | cons f rest ih =>
    intro acc hall
    rw [processAll_cons, processFile_car acc f (hall f (by simp))]
    exact ih acc (fun g hg => hall g (by simp [hg]))

/-- A family entry that originated from a source image satisfying `S`: it
carries that image's payload buffer verbatim (both direct insertion and the
resize step preserve the buffer, which is what ties an entry to its own
source image) and its recorded dimensions are bounded by that same image's
decoded dimensions. -/
def entryBounded (S : DynamicImage → Prop) (e : IconType × IcnsImage) : Prop :=
  ∃ icon, S icon ∧ e.2.data = icon.data ∧
    e.2.width ≤ icon.width ∧ e.2.height ≤ icon.height

/-- A resize-queue entry whose target size is bounded by both dimensions of
its (S-satisfying) source image. -/
def queueBounded (S : DynamicImage → Prop) (q : DynamicImage × Nat × Nat) : Prop :=
  S q.1 ∧ q.2.1 ≤ q.1.width ∧ q.2.1 ≤ q.1.height

theorem make_icns_image_dims (img : DynamicImage) (out : IcnsImage)
    (h : make_icns_image img = .ok out) :
    out.width = img.width ∧ out.height = img.height ∧ out.data = img.data := by
  unfold make_icns_image at h
  cases hf : pixelFormatOf img.color with
  | some fmt =>
    rw [hf] at h
    injection h with h
    rw [← h]
    exact ⟨rfl, rfl, rfl⟩
  | none =>
    rw [hf] at h
    cases h

theorem add_icon_mem (icon : DynamicImage) (density : Nat) (fam fam' : IconFamily)
    (h : add_icon_to_family icon density fam = .ok fam') :
    ∀ e ∈ fam'.elements,
      e ∈ fam.elements ∨
        (e.2.width = icon.width ∧ e.2.height = icon.height ∧ e.2.data = icon.data) := by
  unfold add_icon_to_family at h
  cases hm : IconType.from_pixel_size_and_density icon.width icon.height density with
  | none =>
    rw [hm] at h
    cases h
  | some t =>
    rw [hm] at h
    dsimp only at h
    by_cases hhas : fam.has_icon_with_type t = true
    · rw [if_pos hhas] at h
      injection h with h
      subst h
      intro e he
      exact Or.inl he
    · rw [if_neg hhas] at h
      cases hmk : make_icns_image icon with
      | error e =>
        rw [hmk] at h
        cases h
      | ok img =>
        rw [hmk] at h
        injection h with h
        subst h
        intro e he
        unfold IconFamily.add_icon_with_type at he
        rw [List.mem_append] at he
        cases he with
        | inl h1 => exact Or.inl h1
        | inr h2 =>
          simp only [List.mem_singleton] at h2
          subst h2
          obtain ⟨hw, hh, hd⟩ := make_icns_image_dims icon img hmk
          exact Or.inr ⟨hw, hh, hd⟩

theorem processFile_dims (S : DynamicImage → Prop) (f : IconFile)
    (acc acc₁ : IconFamily × List (DynamicImage × Nat × Nat))
    (hS : ∀ icon, f.content = some icon → S icon)
    (hfam : ∀ e ∈ acc.1.elements, entryBounded S e)
    (hq : ∀ q ∈ acc.2, queueBounded S q)
    (h : processFile acc f = .ok acc₁) :
    (∀ e ∈ acc₁.1.elements, entryBounded S e) ∧ (∀ q ∈ acc₁.2, queueBounded S q) := by
  unfold processFile at h
  by_cases hcar : f.ext = some "car"
  · rw [if_pos hcar] at h
    injection h with h
    subst h
    exact ⟨hfam, hq⟩
  · rw [if_neg hcar] at h
    cases hc : f.content with
    | none =>
      rw [hc] at h
      cases h
    | some icon =>
      rw [hc] at h
      dsimp only at h
      by_cases hcls : Nat.min icon.width icon.height >
          nextSizeDown (Nat.min icon.width icon.height)
      · rw [if_pos hcls] at h
        injection h with h
        subst h
        refine ⟨hfam, ?_⟩
        intro q hqmem
        rw [List.mem_append] at hqmem
        cases hqmem with
        | inl hin => exact hq q hin
        | inr hnew =>
          simp only [List.mem_singleton] at hnew
          subst hnew
          refine ⟨hS icon hc, ?_, ?_⟩
          · exact Nat.le_of_lt (Nat.lt_of_lt_of_le hcls (Nat.min_le_left _ _))
          · exact Nat.le_of_lt (Nat.lt_of_lt_of_le hcls (Nat.min_le_right _ _))
      · rw [if_neg hcls] at h
        cases hadd : add_icon_to_family icon (if f.retina then 2 else 1) acc.1 with
        | error e =>
          rw [hadd] at h
          cases h
        | ok fam =>
          rw [hadd] at h
          injection h with h
          subst h
          refine ⟨?_, hq⟩
          intro e he
          cases add_icon_mem icon _ acc.1 fam hadd e he with
          | inl hold => exact hfam e hold
          | inr hnew =>
            exact ⟨icon, hS icon hc, hnew.2.2, le_of_eq hnew.1, le_of_eq hnew.2.1⟩

theorem processAll_dims (S : DynamicImage → Prop) :
    ∀ (files : List IconFile) (acc acc' : IconFamily × List (DynamicImage × Nat × Nat)),
    (∀ f ∈ files, ∀ icon, f.content = some icon → S icon) →
    (∀ e ∈ acc.1.elements, entryBounded S e) →
    (∀ q ∈ acc.2, queueBounded S q) →
    processAll files acc = .ok acc' →
    (∀ e ∈ acc'.1.elements, entryBounded S e) ∧ (∀ q ∈ acc'.2, queueBounded S q) := by
  intro files
  induction files with
  | nil =>
    intro acc acc' _ hfam hq h
    rw [processAll_nil] at h
    injection h with h
    subst h
    exact ⟨hfam, hq⟩
  | cons f rest ih =>
    intro acc acc' hS hfam hq h
    rw [processAll_cons] at h
    cases hpf : processFile acc f with
    | error e =>
      rw [hpf] at h
      cases h
    | ok acc₁ =>
      rw [hpf] at h
      obtain ⟨hfam₁, hq₁⟩ :=
        processFile_dims S f acc acc₁ (hS f (List.mem_cons_self f rest)) hfam hq hpf
      exact ih acc₁ acc' (fun g hg => hS g (List.mem_cons_of_mem f hg)) hfam₁ hq₁ h

theorem resizePass_dims (S : DynamicImage → Prop) :
    ∀ (queue : List (DynamicImage × Nat × Nat)) (fam fam' : IconFamily),
    (∀ q ∈ queue, queueBounded S q) →
    (∀ e ∈ fam.elements, entryBounded S e) →
    resizePass queue fam = .ok fam' →
    ∀ e ∈ fam'.elements, entryBounded S e := by
  intro queue
  induction queue with
  | nil =>
    intro fam fam' _ hfam h
    rw [resizePass_nil] at h
    injection h with h
    subst h
    exact hfam
  | cons q rest ih =>
    intro fam fam' hq hfam h
    obtain ⟨icon, nsd, density⟩ := q
    rw [resizePass_cons] at h
    cases hadd : add_icon_to_family (resize_exact icon nsd nsd .Lanczos3) density fam with
    | error e =>
      rw [hadd] at h
      cases h
    | ok fam₁ =>
      rw [hadd] at h
      refine ih fam₁ fam' (fun r hr => hq r (List.mem_cons_of_mem _ hr)) ?_ h
      intro e he
      cases add_icon_mem _ _ fam fam₁ hadd e he with
      | inl hold => exact hfam e hold
      | inr hnew =>
        obtain ⟨hqS, hw, hh⟩ := hq (icon, nsd, density) (List.mem_cons_self _ _)
        refine ⟨icon, hqS, hnew.2.2, ?_, ?_⟩
        · rw [hnew.1]
          exact hw
        · rw [hnew.2.1]
          exact hh

/-! ## Claim theorems -/

/-- C3: for every positive side length `s`, the resize target computed by
the classifier (`next_size_down`) equals `2 ^ ⌊log₂ s⌋` and never exceeds
`s`; when `s` is itself a power of two the target equals `s`, so the
`orig_size > next_size_down` guard fails and the image is taken as a direct
candidate — `processFile` never queues it for resizing. -/
theorem c3_rounding (s : Nat) (hs : 0 < s) :
    nextSizeDown s = 2 ^ Nat.log2 s ∧
    nextSizeDown s ≤ s ∧
    (∀ k, s = 2 ^ k → nextSizeDown s = s) ∧
    (∀ k, s = 2 ^ k → ∀ acc file icon res,
      file.content = some icon → Nat.min icon.width icon.height = s →
      processFile acc file = .ok res → res.2 = acc.2) := by
  refine ⟨by rw [nextSizeDown, log2floor_eq_log2], nextSizeDown_le s hs, ?_, ?_⟩
  · intro k hk
    rw [hk, nextSizeDown_pow]
  · intro k hk acc file icon res hcontent hmin hres
    unfold processFile at hres
    by_cases hcar : file.ext = some "car"
    · rw [if_pos hcar] at hres
      injection hres with hres
      rw [← hres]
    · rw [if_neg hcar, hcontent] at hres
      dsimp only at hres
      rw [hmin, hk, nextSizeDown_pow] at hres
      rw [if_neg (lt_irrefl (2 ^ k))] at hres
      cases hadd : add_icon_to_family icon (if file.retina then 2 else 1) acc.1 with
      | ok fam =>
        rw [hadd] at hres
        injection hres with hres
        rw [← hres]
      | error e =>
        rw [hadd] at hres
        cases hres

/-- C5: two classified images mapping to the same slot type — the first
insertion stores the first image's encoded payload; the second insertion
returns `ok` (no error) and leaves the family unchanged, so the slot holds
exactly the first image's payload afterwards. -/
theorem c5_dedup (icon₁ icon₂ : DynamicImage) (d₁ d₂ : Nat) (t : IconType)
    (fam : IconFamily) (fmt : PixelFormat)
    (h₁ : IconType.from_pixel_size_and_density icon₁.width icon₁.height d₁ = some t)
    (h₂ : IconType.from_pixel_size_and_density icon₂.width icon₂.height d₂ = some t)
    (hfree : fam.has_icon_with_type t = false)
    (hfmt : pixelFormatOf icon₁.color = some fmt) :
    add_icon_to_family icon₁ d₁ fam =
      .ok (fam.add_icon_with_type ⟨fmt, icon₁.width, icon₁.height, icon₁.data⟩ t) ∧
    add_icon_to_family icon₂ d₂
        (fam.add_icon_with_type ⟨fmt, icon₁.width, icon₁.height, icon₁.data⟩ t) =
      .ok (fam.add_icon_with_type ⟨fmt, icon₁.width, icon₁.height, icon₁.data⟩ t) ∧
    (fam.add_icon_with_type ⟨fmt, icon₁.width, icon₁.height, icon₁.data⟩ t).get_icon_with_type? t
      = some ⟨fmt, icon₁.width, icon₁.height, icon₁.data⟩ := by
  exact ⟨add_icon_to_family_free icon₁ d₁ t fam fmt h₁ hfree hfmt,
    add_icon_to_family_occupied icon₂ d₂ t _ h₂ (has_icon_add_self fam _ t),
    get_icon_add_of_free fam _ t hfree⟩

/-- Witness for C5: two 16×16 RGBA images at standard density compete for
the 16×16@1x slot of an empty family. -/
theorem c5_dedup_witness :
    (IconType.from_pixel_size_and_density 16 16 1 = some .RGBA32_16x16 ∧
     IconFamily.new.has_icon_with_type .RGBA32_16x16 = false ∧
     pixelFormatOf .Rgba8 = some .RGBA) ∧
    (add_icon_to_family ⟨16, 16, .Rgba8, [1]⟩ 1 IconFamily.new =
       .ok (IconFamily.new.add_icon_with_type ⟨.RGBA, 16, 16, [1]⟩ .RGBA32_16x16) ∧
     add_icon_to_family ⟨16, 16, .Rgba8, [2]⟩ 1
         (IconFamily.new.add_icon_with_type ⟨.RGBA, 16, 16, [1]⟩ .RGBA32_16x16) =
       .ok (IconFamily.new.add_icon_with_type ⟨.RGBA, 16, 16, [1]⟩ .RGBA32_16x16) ∧
     (IconFamily.new.add_icon_with_type ⟨.RGBA, 16, 16, [1]⟩ .RGBA32_16x16).get_icon_with_type?
         .RGBA32_16x16 = some ⟨.RGBA, 16, 16, [1]⟩) :=
  ⟨by decide,
   c5_dedup ⟨16, 16, .Rgba8, [1]⟩ ⟨16, 16, .Rgba8, [2]⟩ 1 1 .RGBA32_16x16 IconFamily.new .RGBA
     (by decide) (by decide) (by decide) (by decide)⟩

/-- C7: an image whose size maps to a slot type (with that slot still free)
but whose pixel format is outside the four supported formats makes
`add_icon_to_family` fail with the hard `UnsupportedPixelFormat` io error,
and that error propagates out of `create_icns_file` (the `?` operator),
aborting the whole packing operation rather than being skipped. -/
theorem c7_unsupported_format_hard_error
    (icon : DynamicImage) (density : Nat) (t : IconType) (fam : IconFamily)
    (hmap : IconType.from_pixel_size_and_density icon.width icon.height density = some t)
    (hfree : fam.has_icon_with_type t = false)
    (hfmt : pixelFormatOf icon.color = none) :
    add_icon_to_family icon density fam =
      .error (.ioError .InvalidData ("unsupported ColorType: " ++ icon.color.rustName)) ∧
    (∀ p (file : IconFile),
      file.ext ≠ some "car" → file.ext ≠ some "icns" →
      file.content = some icon → (if file.retina then 2 else 1) = density →
      ¬ Nat.min icon.width icon.height > nextSizeDown (Nat.min icon.width icon.height) →
      create_icns_file p [file] =
        .error (.ioError .InvalidData ("unsupported ColorType: " ++ icon.color.rustName))) := by
  have key : ∀ fam' : IconFamily, fam'.has_icon_with_type t = false →
      add_icon_to_family icon density fam' =
        .error (.ioError .InvalidData ("unsupported ColorType: " ++ icon.color.rustName)) := by
    intro fam' hfree'
    unfold add_icon_to_family
    rw [hmap]
    dsimp only
    rw [hfree']
    simp only [Bool.false_eq_true, if_false]
    unfold make_icns_image
    rw [hfmt]
  refine ⟨key fam hfree, ?_⟩
  intro p file hcar hicns hcontent hd hdirect
  unfold create_icns_file
  rw [if_neg (by simp)]
  have hbeq : (file.ext == some "icns") = false := by
    simp only [beq_eq_false_iff_ne]
    exact hicns
  have hfind : ([file].find? (fun f => f.ext == some "icns")) = none := by
    simp only [List.find?_cons, List.find?_nil, hbeq]
  rw [hfind]
  unfold processAll processFile
  rw [if_neg hcar, hcontent]
  dsimp only
  rw [hd, if_neg hdirect, key IconFamily.new rfl]

/-- Witness for C7: a 16×16 image with 16-bit RGBA pixels. -/
theorem c7_unsupported_format_witness :
    (IconType.from_pixel_size_and_density 16 16 1 = some .RGBA32_16x16 ∧
     IconFamily.new.has_icon_with_type .RGBA32_16x16 = false ∧
     pixelFormatOf .Rgba16 = none) ∧
    (add_icon_to_family ⟨16, 16, .Rgba16, [1]⟩ 1 IconFamily.new =
       .error (.ioError .InvalidData "unsupported ColorType: Rgba16") ∧
     (∀ p (file : IconFile),
       file.ext ≠ some "car" → file.ext ≠ some "icns" →
       file.content = some ⟨16, 16, .Rgba16, [1]⟩ → (if file.retina then 2 else 1) = 1 →
       ¬ Nat.min 16 16 > nextSizeDown (Nat.min 16 16) →
       create_icns_file p [file] =
         .error (.ioError .InvalidData "unsupported ColorType: Rgba16"))) :=
  ⟨by decide,
   c7_unsupported_format_hard_error ⟨16, 16, .Rgba16, [1]⟩ 1 .RGBA32_16x16 IconFamily.new
     (by decide) (by decide) (by decide)⟩

/-- C9: when some supplied file has the `icns` extension, `create_icns_file`
copies the first such file and returns its destination immediately — the
result is the copy outcome, produced before any image is decoded,
classified, resized, or packed (the scan loop precedes `image::open`). -/
theorem c9_icns_short_circuit (p : String) (files : List IconFile) (f : IconFile)
    (hfind : files.find? (fun g => g.ext == some "icns") = some f) :
    create_icns_file p files = .ok (some (.copiedIcns f.name)) := by
  unfold create_icns_file
  have hne : files.length ≠ 0 := by
    intro h0
    rw [List.length_eq_zero] at h0
    subst h0
    exact Option.noConfusion hfind
  rw [if_neg hne, hfind]

/-- Witness for C9: the first file is undecodable yet the `.icns` file
supplied after it is still copied without any decode error. -/
theorem c9_icns_short_circuit_witness :
    ([⟨"broken.png", some "png", none, false⟩,
      ⟨"app.icns", some "icns", none, false⟩] : List IconFile).find?
        (fun g => g.ext == some "icns") = some ⟨"app.icns", some "icns", none, false⟩ ∧
    create_icns_file "app"
      [⟨"broken.png", some "png", none, false⟩, ⟨"app.icns", some "icns", none, false⟩] =
      .ok (some (.copiedIcns "app.icns")) :=
  ⟨by decide,
   c9_icns_short_circuit "app"
     [⟨"broken.png", some "png", none, false⟩, ⟨"app.icns", some "icns", none, false⟩]
     ⟨"app.icns", some "icns", none, false⟩ (by decide)⟩

/-- C10: files with the `car` extension are skipped before decoding: a
`.car` file (even an unreadable one) leaves the accumulator untouched, and
the whole first pass behaves identically with all `.car` files removed, so
they contribute nothing to the icon family, the resize queue, or the bytes
eventually written. -/
theorem c10_car_skipped :
    (∀ acc (f : IconFile), f.ext = some "car" → processFile acc f = .ok acc) ∧
    (∀ (files : List IconFile) acc,
      processAll (files.filter (fun f => !(f.ext == some "car"))) acc = processAll files acc) := by
  refine ⟨processFile_car, ?_⟩
  intro files
  induction files with
  | nil => intro acc; rfl
  | cons f rest ih =>
    intro acc
    by_cases hf : f.ext = some "car"
    · have hp : (!(f.ext == some "car")) = false := by simp [hf]
      rw [List.filter_cons, hp]
      simp only [Bool.false_eq_true, if_false]
      rw [processAll_cons, processFile_car acc f hf]
      exact ih acc
    · have hp : (!(f.ext == some "car")) = true := by simp [hf]
      rw [List.filter_cons, hp]
      simp only [if_true]
      rw [processAll_cons, processAll_cons]
      cases hpf : processFile acc f with
      | ok acc' => exact ih acc'
      | error e => rfl

/-- Witness for C10: a `.car` file with unreadable content is a no-op for
the first pass, run next to a decodable 16×16 image. -/
theorem c10_car_skipped_witness :
    ((⟨"Assets.car", some "car", none, false⟩ : IconFile).ext = some "car" ∧
     processFile (IconFamily.new, []) ⟨"Assets.car", some "car", none, false⟩ =
       .ok (IconFamily.new, [])) ∧
    processAll
        (([⟨"Assets.car", some "car", none, false⟩,
           ⟨"icon.png", some "png", some ⟨16, 16, .Rgba8, [3]⟩, false⟩] :
            List IconFile).filter (fun f => !(f.ext == some "car")))
        (IconFamily.new, []) =
      processAll
        [⟨"Assets.car", some "car", none, false⟩,
         ⟨"icon.png", some "png", some ⟨16, 16, .Rgba8, [3]⟩, false⟩]
        (IconFamily.new, []) :=
  ⟨⟨by decide, c10_car_skipped.1 (IconFamily.new, []) ⟨"Assets.car", some "car", none, false⟩
      (by decide)⟩,
   c10_car_skipped.2
     [⟨"Assets.car", some "car", none, false⟩,
      ⟨"icon.png", some "png", some ⟨16, 16, .Rgba8, [3]⟩, false⟩]
     (IconFamily.new, [])⟩

/-- C8: whenever the actool version gate fails — the tool is missing
(`get_actool_version` yields nothing), its output has no parseable
`short-bundle-version` major number, or the major version is below 26 —
`create_assets_car_file` returns `ok none`: the catalog path is skipped
without failing the build and no artifact is produced.  (`actoolMajor`
bundles the three failure modes: it is `some m` exactly when a major
version `m` was parsed.) -/
theorem c8_version_gate_skips (icons : List IconPath) (out : Option String)
    (compile : IconPath → Except PackError (Option String))
    (hnocar : icons.find? (fun i => i.ext == some "car") = none)
    (hgate : ∀ m, actoolMajor out = some m → m < 26) :
    create_assets_car_file (some icons) out compile = .ok none := by
  unfold create_assets_car_file
  dsimp only
  rw [hnocar]
  dsimp only
  cases hlast : (icons.filter (fun i => i.ext == some "icon")).getLast? with
  | none => rfl
  | some iconDir =>
    dsimp only
    cases hv : get_actool_version out with
    | none => rfl
    | some version =>
      dsimp only
      cases hm : parseU32 ((version.splitOn ".").headD "") with
      | none => rfl
      | some major =>
        dsimp only
        have hlt : major < 26 := by
          apply hgate
          unfold actoolMajor
          rw [hv]
          exact hm
        rw [if_pos hlt]

/-- Witness for C8: a missing tool (`none` version output) with an `.icon`
input skips the catalog path even though the compile step would fail. -/
theorem c8_version_gate_skips_witness :
    (([⟨"App", some "icon"⟩] : List IconPath).find? (fun i => i.ext == some "car") = none ∧
     (∀ m, actoolMajor none = some m → m < 26)) ∧
    create_assets_car_file (some [⟨"App", some "icon"⟩]) none
      (fun _ => .error (.genericError "actool failed")) = .ok none :=
  ⟨⟨by decide, by intro m h; simp [actoolMajor, get_actool_version] at h⟩,
   c8_version_gate_skips [⟨"App", some "icon"⟩] none
     (fun _ => .error (.genericError "actool failed")) (by decide)
     (by intro m h; simp [actoolMajor, get_actool_version] at h)⟩

/-- C1 (divergence exhibit): a 2×2 image maps to no slot type at its
original size (2 is already a power of two, so no resize is attempted),
and instead of being skipped with a diagnostic, it makes the whole
`create_icns_file` call fail with the propagated hard io error
"No matching IconType" — the usable 16×16 image supplied after it is never
packed, although on its own it packs fine. -/
theorem c1_unusable_aborts_packing :
    create_icns_file "app"
      [⟨"tiny.png", some "png", some ⟨2, 2, .Rgba8, [0]⟩, false⟩,
       ⟨"good.png", some "png", some ⟨16, 16, .Rgba8, [7]⟩, false⟩] =
      .error (.ioError .InvalidData "No matching IconType") ∧
    create_icns_file "app"
      [⟨"good.png", some "png", some ⟨16, 16, .Rgba8, [7]⟩, false⟩] =
      .ok (some (.packedIcns "app.icns" ⟨[(.RGBA32_16x16, ⟨.RGBA, 16, 16, [7]⟩)]⟩)) :=
  ⟨by decide, by decide⟩

/-- C2 (counterexample): packing zero input images does not fail with
`EmptyFamily` — the source returns `Ok(None)` before any family is built. -/
theorem c2_counterexample :
    create_icns_file "app" ([] : List IconFile) = .ok none := by decide

/-- C2 (amended): packing zero input images returns `ok none` (not an
error); a single Unusable image fails hard with "No matching IconType"
rather than `EmptyFamily`; a non-empty input whose files are all skipped
`.car` files fails with the hard `EmptyFamily` error ("No usable Icon
files found"); and a packed container always holds at least one populated
slot. -/
theorem c2_amended_empty_family :
    (∀ p, create_icns_file p [] = .ok none) ∧
    (∀ p file icon,
      file.ext ≠ some "car" → file.ext ≠ some "icns" → file.content = some icon →
      IconType.from_pixel_size_and_density icon.width icon.height
        (if file.retina then 2 else 1) = none →
      ¬ Nat.min icon.width icon.height > nextSizeDown (Nat.min icon.width icon.height) →
      create_icns_file p [file] = .error (.ioError .InvalidData "No matching IconType")) ∧
    (∀ p files, files ≠ [] → (∀ f ∈ files, f.ext = some "car") →
      create_icns_file p files = .error (.genericError "No usable Icon files found")) ∧
    (∀ p q files fam, create_icns_file p files = .ok (some (.packedIcns q fam)) →
      fam.is_empty = false) := by
  refine ⟨fun p => rfl, ?_, ?_, ?_⟩
  · intro p file icon hcar hicns hcontent hmap hdirect
    unfold create_icns_file
    rw [if_neg (by simp)]
    have hbeq : (file.ext == some "icns") = false := by
      simp only [beq_eq_false_iff_ne]
      exact hicns
    have hfind : ([file].find? (fun f => f.ext == some "icns")) = none := by
      simp only [List.find?_cons, List.find?_nil, hbeq]
    rw [hfind]
    unfold processAll processFile
    rw [if_neg hcar, hcontent]
    dsimp only
    rw [if_neg hdirect]
    unfold add_icon_to_family
    rw [hmap]
  · intro p files hne hall
    unfold create_icns_file
    rw [if_neg (fun h0 => hne (List.length_eq_zero.mp h0))]
    have hfind : (files.find? (fun f => f.ext == some "icns")) = none := by
      rw [List.find?_eq_none]
      intro f hf
      rw [hall f hf]
      simp
    rw [hfind, processAll_all_car files _ hall]
    rfl
  · intro p q files fam h
    unfold create_icns_file at h
    by_cases hlen : files.length = 0
    · rw [if_pos hlen] at h
      exact absurd h (by simp)
    · rw [if_neg hlen] at h
      cases hfind : files.find? (fun f => f.ext == some "icns") with
      | some f =>
        rw [hfind] at h
        exact absurd h (by simp)
      | none =>
        rw [hfind] at h
        dsimp only at h
        cases hp : processAll files (IconFamily.new, []) with
        | error e =>
          rw [hp] at h
          exact absurd h (by simp)
        | ok pr =>
          rw [hp] at h
          obtain ⟨family, toResize⟩ := pr
          dsimp only at h
          cases hr : resizePass toResize family with
          | error e =>
            rw [hr] at h
            exact absurd h (by simp)
          | ok fam2 =>
            rw [hr] at h
            dsimp only at h
            cases he : fam2.is_empty with
            | true =>
              rw [if_pos he] at h
              exact absurd h (by simp)
            | false =>
              rw [if_neg (by rw [he]; simp)] at h
              simp only [Except.ok.injEq, Option.some.injEq, PackOutput.packedIcns.injEq] at h
              rw [← h.2]
              exact he

/-- Witness for C2 (amended): a lone broken `.car` input fails with the
`EmptyFamily` error, and the packed one-slot family of a single 16×16
image is non-empty. -/
theorem c2_amended_empty_family_witness :
    create_icns_file "app" [⟨"Assets.car", some "car", none, false⟩] =
      .error (.genericError "No usable Icon files found") ∧
    (IconFamily.new.add_icon_with_type ⟨.RGBA, 16, 16, [7]⟩ .RGBA32_16x16).is_empty = false :=
  ⟨c2_amended_empty_family.2.2.1 "app" [⟨"Assets.car", some "car", none, false⟩]
     (by decide) (by intro f hf; simp at hf; rw [hf]),
   c2_amended_empty_family.2.2.2 "app" "app.icns"
     [⟨"icon.png", some "png", some ⟨16, 16, .Rgba8, [7]⟩, false⟩]
     (IconFamily.new.add_icon_with_type ⟨.RGBA, 16, 16, [7]⟩ .RGBA32_16x16) (by decide)⟩

/-- C4 (counterexample): the first supplied image (17×17, which maps to the
16×16@1x slot after its resize to 16) does not win the slot — the family
holds the payload of the second supplied image (16×16, a direct fit), which
cannot be a resample of the first (their payloads differ), because direct
images are inserted in a first pass before any resized image. -/
theorem c4_counterexample :
    IconType.from_pixel_size_and_density 16 16 1 = some .RGBA32_16x16 ∧
    Nat.min 17 17 > nextSizeDown (Nat.min 17 17) ∧
    nextSizeDown 17 = 16 ∧
    create_icns_file "app"
      [⟨"first.png", some "png", some ⟨17, 17, .Rgba8, [0]⟩, false⟩,
       ⟨"second.png", some "png", some ⟨16, 16, .Rgba8, [7]⟩, false⟩] =
      .ok (some (.packedIcns "app.icns" ⟨[(.RGBA32_16x16, ⟨.RGBA, 16, 16, [7]⟩)]⟩)) ∧
    (⟨.RGBA, 16, 16, [7]⟩ : IcnsImage) ≠
      ⟨.RGBA, 16, 16, (resize_exact ⟨17, 17, .Rgba8, [0]⟩ 16 16 .Lanczos3).data⟩ := by
  decide

/-- C4 (amended): slot occupancy is decided first by processing phase and
only then by caller order: direct-fit images are inserted during the first
pass and resize-needing images during the second, so when a direct image
and a resize-needing image compete for the same slot type, the direct
image's payload wins in either supplied order. -/
theorem c4_amended_direct_beats_resized (imr imd : DynamicImage) (fr fd : IconFile)
    (t : IconType) (fmt : PixelFormat) (p : String)
    (hfr_car : fr.ext ≠ some "car") (hfr_icns : fr.ext ≠ some "icns")
    (hfr : fr.content = some imr)
    (hfd_car : fd.ext ≠ some "car") (hfd_icns : fd.ext ≠ some "icns")
    (hfd : fd.content = some imd)
    (hr_needs : Nat.min imr.width imr.height > nextSizeDown (Nat.min imr.width imr.height))
    (hr_map : IconType.from_pixel_size_and_density
      (nextSizeDown (Nat.min imr.width imr.height))
      (nextSizeDown (Nat.min imr.width imr.height)) (if fr.retina then 2 else 1) = some t)
    (hd_direct : ¬ Nat.min imd.width imd.height > nextSizeDown (Nat.min imd.width imd.height))
    (hd_map : IconType.from_pixel_size_and_density imd.width imd.height
      (if fd.retina then 2 else 1) = some t)
    (hd_fmt : pixelFormatOf imd.color = some fmt) :
    create_icns_file p [fr, fd] =
      .ok (some (.packedIcns (p ++ ".icns")
        (IconFamily.new.add_icon_with_type ⟨fmt, imd.width, imd.height, imd.data⟩ t))) ∧
    create_icns_file p [fd, fr] =
      .ok (some (.packedIcns (p ++ ".icns")
        (IconFamily.new.add_icon_with_type ⟨fmt, imd.width, imd.height, imd.data⟩ t))) := by
  have hbr : (fr.ext == some "icns") = false := by
    simp only [beq_eq_false_iff_ne]
    exact hfr_icns
  have hbd : (fd.ext == some "icns") = false := by
    simp only [beq_eq_false_iff_ne]
    exact hfd_icns
  have hmapr : IconType.from_pixel_size_and_density
      (resize_exact imr (nextSizeDown (Nat.min imr.width imr.height))
        (nextSizeDown (Nat.min imr.width imr.height)) .Lanczos3).width
      (resize_exact imr (nextSizeDown (Nat.min imr.width imr.height))
        (nextSizeDown (Nat.min imr.width imr.height)) .Lanczos3).height
      (if fr.retina then 2 else 1) = some t := hr_map
  have hempty : (IconFamily.new.add_icon_with_type
      ⟨fmt, imd.width, imd.height, imd.data⟩ t).is_empty = false := rfl
  constructor
  · unfold create_icns_file
    rw [if_neg (by simp)]
    have hfind : ([fr, fd].find? (fun f => f.ext == some "icns")) = none := by
      simp only [List.find?_cons, List.find?_nil, hbr, hbd]
    rw [hfind]
    rw [processAll_cons, processFile_resize (IconFamily.new, []) fr imr hfr_car hfr hr_needs]
    dsimp only [List.nil_append]
    rw [processAll_cons, processFile_direct _ fd imd hfd_car hfd hd_direct]
    rw [add_icon_to_family_free imd _ t IconFamily.new fmt hd_map rfl hd_fmt]
    dsimp only
    rw [processAll_nil]
    dsimp only
    rw [resizePass_cons,
      add_icon_to_family_occupied _ _ t _ hmapr (has_icon_add_self IconFamily.new _ t)]
    dsimp only
    rw [resizePass_nil]
    dsimp only
    rw [hempty]
    simp only [Bool.false_eq_true, if_false]
  · unfold create_icns_file
    rw [if_neg (by simp)]
    have hfind : ([fd, fr].find? (fun f => f.ext == some "icns")) = none := by
      simp only [List.find?_cons, List.find?_nil, hbr, hbd]
    rw [hfind]
    rw [processAll_cons, processFile_direct _ fd imd hfd_car hfd hd_direct]
    rw [add_icon_to_family_free imd _ t IconFamily.new fmt hd_map rfl hd_fmt]
    dsimp only
    rw [processAll_cons, processFile_resize _ fr imr hfr_car hfr hr_needs]
    dsimp only [List.nil_append]
    rw [processAll_nil]
    dsimp only
    rw [resizePass_cons,
      add_icon_to_family_occupied _ _ t _ hmapr (has_icon_add_self IconFamily.new _ t)]
    dsimp only
    rw [resizePass_nil]
    dsimp only
    rw [hempty]
    simp only [Bool.false_eq_true, if_false]

/-- Witness for C4 (amended): a 17×17 image (resized to 16) loses the
16×16@1x slot to a 16×16 image in both supplied orders. -/
theorem c4_amended_direct_beats_resized_witness :
    create_icns_file "app"
      [⟨"first.png", some "png", some ⟨17, 17, .Rgba8, [0]⟩, false⟩,
       ⟨"second.png", some "png", some ⟨16, 16, .Rgba8, [7]⟩, false⟩] =
      .ok (some (.packedIcns "app.icns"
        (IconFamily.new.add_icon_with_type ⟨.RGBA, 16, 16, [7]⟩ .RGBA32_16x16))) ∧
    create_icns_file "app"
      [⟨"second.png", some "png", some ⟨16, 16, .Rgba8, [7]⟩, false⟩,
       ⟨"first.png", some "png", some ⟨17, 17, .Rgba8, [0]⟩, false⟩] =
      .ok (some (.packedIcns "app.icns"
        (IconFamily.new.add_icon_with_type ⟨.RGBA, 16, 16, [7]⟩ .RGBA32_16x16))) :=
  c4_amended_direct_beats_resized ⟨17, 17, .Rgba8, [0]⟩ ⟨16, 16, .Rgba8, [7]⟩
    ⟨"first.png", some "png", some ⟨17, 17, .Rgba8, [0]⟩, false⟩
    ⟨"second.png", some "png", some ⟨16, 16, .Rgba8, [7]⟩, false⟩
    .RGBA32_16x16 .RGBA "app"
    (by decide) (by decide) (by decide) (by decide) (by decide) (by decide)
    (by decide) (by decide) (by decide) (by decide) (by decide)

/-- C6: no image placed in the final family has pixel dimensions larger
than its own original decoded dimensions — every entry of a successfully
packed family carries the payload buffer of the decoded input image it came
from (both direct insertion and the resize step preserve the buffer, which
identifies the entry's source), and the entry's recorded dimensions are
bounded by that same image's decoded dimensions: direct insertions keep
their dimensions and the resize pass only shrinks (the
`orig_size > next_size_down` guard queues a target strictly below both
dimensions). -/
theorem c6_non_upscale (p q : String) (files : List IconFile) (fam : IconFamily)
    (h : create_icns_file p files = .ok (some (.packedIcns q fam))) :
    ∀ e ∈ fam.elements, ∃ icon : DynamicImage,
      (∃ f ∈ files, f.content = some icon) ∧
      e.2.data = icon.data ∧
      e.2.width ≤ icon.width ∧ e.2.height ≤ icon.height := by
  unfold create_icns_file at h
  by_cases hlen : files.length = 0
  · rw [if_pos hlen] at h
    exact absurd h (by simp)
  · rw [if_neg hlen] at h
    cases hfind : files.find? (fun f => f.ext == some "icns") with
    | some f =>
      rw [hfind] at h
      exact absurd h (by simp)
    | none =>
      rw [hfind] at h
      dsimp only at h
      cases hp : processAll files (IconFamily.new, []) with
      | error e =>
        rw [hp] at h
        exact absurd h (by simp)
      | ok pr =>
        rw [hp] at h
        obtain ⟨family, toResize⟩ := pr
        dsimp only at h
        cases hr : resizePass toResize family with
        | error e =>
          rw [hr] at h
          exact absurd h (by simp)
        | ok fam2 =>
          rw [hr] at h
          dsimp only at h
          by_cases he : fam2.is_empty = true
          · rw [if_pos he] at h
            exact absurd h (by simp)
          · rw [if_neg he] at h
            simp only [Except.ok.injEq, Option.some.injEq, PackOutput.packedIcns.injEq] at h
            obtain ⟨-, hfam⟩ := h
            subst hfam
            obtain ⟨hfam₁, hq₁⟩ :=
              processAll_dims (fun icon => ∃ f ∈ files, f.content = some icon)
                files (IconFamily.new, []) (family, toResize)
                (fun f hf icon hic => ⟨f, hf, hic⟩)
                (by intro e he; cases he)
                (by intro r hr; cases hr)
                hp
            intro e he
            exact resizePass_dims _ toResize family fam2 hq₁ hfam₁ hr e he

/-- Witness for C6: a single 16×16 image packs into a family whose only
entry carries that image's payload and is bounded by its dimensions. -/
theorem c6_non_upscale_witness :
    create_icns_file "app" [⟨"icon.png", some "png", some ⟨16, 16, .Rgba8, [7]⟩, false⟩] =
      .ok (some (.packedIcns "app.icns" ⟨[(.RGBA32_16x16, ⟨.RGBA, 16, 16, [7]⟩)]⟩)) ∧
    (∃ icon : DynamicImage,
      (∃ f ∈ ([⟨"icon.png", some "png", some ⟨16, 16, .Rgba8, [7]⟩, false⟩] : List IconFile),
        f.content = some icon) ∧
      (⟨.RGBA, 16, 16, [7]⟩ : IcnsImage).data = icon.data ∧
      (⟨.RGBA, 16, 16, [7]⟩ : IcnsImage).width ≤ icon.width ∧
      (⟨.RGBA, 16, 16, [7]⟩ : IcnsImage).height ≤ icon.height) :=
  ⟨by decide,
   c6_non_upscale "app" "app.icns"
     [⟨"icon.png", some "png", some ⟨16, 16, .Rgba8, [7]⟩, false⟩]
     ⟨[(.RGBA32_16x16, ⟨.RGBA, 16, 16, [7]⟩)]⟩ (by decide)
     (.RGBA32_16x16, ⟨.RGBA, 16, 16, [7]⟩) (by simp)⟩

/-- Witness for C3 at `s = 4`. -/
theorem c3_rounding_witness :
    0 < 4 ∧
    (nextSizeDown 4 = 2 ^ Nat.log2 4 ∧
     nextSizeDown 4 ≤ 4 ∧
     (∀ k, 4 = 2 ^ k → nextSizeDown 4 = 4) ∧
     (∀ k, 4 = 2 ^ k → ∀ acc file icon res,
       file.content = some icon → Nat.min icon.width icon.height = 4 →
       processFile acc file = .ok res → res.2 = acc.2)) :=
  ⟨by decide, c3_rounding 4 (by decide)⟩

end TauriIcon
